import Mathlib

/-
Verification of the reputation-policy engine and the user-recovery API of
the authentik repository.

The reputation subsystem (ScoreStore, ReputationUpdater, ReputationPolicy)
is shipped in this snapshot only through its test suite
(src/authentik/policies/reputation/tests.py); its implementation modules
are not part of the snapshot. Those components are therefore modelled from
the specification, and checked for consistency against the assertions made
by the shipped tests. The user API (src/authentik/core/api/users.py) is
part of the snapshot and is embedded directly from its source.
-/

namespace Authentik

/-! ## Reputation score store (modelled from the spec) -/

/-- The kind of a reputation record: it scores either an acting identifier
(username) or a source network address. -/
inductive Kind where
  | IDENTIFIER
  | NETWORK_ADDRESS
deriving DecidableEq, Repr

/-- Modelled from the spec: `ReputationRecord` has a `kind`, a `key` that is
unique per kind, a signed integer `score` defaulting to 0 on first write, and
an `updated_at` timestamp of the last mutation. -/
structure ReputationRecord where
  kind : Kind
  key : String
  score : Int
  updated_at : Nat
deriving DecidableEq, Repr

/-- The score store is the list of durable reputation records. -/
abbrev ScoreStore := List ReputationRecord

/-- Whether a record is the record for the given (kind, key) pair. -/
def recMatches (k : Kind) (key : String) (r : ReputationRecord) : Bool :=
  r.kind == k && r.key == key

/-- Modelled from the spec: `get(kind, key)` returns the stored score,
or 0 if no record exists (never fails). -/
def ScoreStore.get : ScoreStore → Kind → String → Int
  | [], _, _ => 0
  | r :: rest, k, key =>
    if recMatches k key r then r.score else ScoreStore.get rest k key

/-- Whether the store holds a record for the given (kind, key) pair. -/
def ScoreStore.hasRecord : ScoreStore → Kind → String → Bool
  | [], _, _ => false
  | r :: rest, k, key => recMatches k key r || ScoreStore.hasRecord rest k key

/-- Modelled from the spec: `adjust(kind, key, delta)` creates-or-updates the
record, adding `delta` to its score (a fresh record starts from the default
score 0), and updates `updated_at`. -/
def ScoreStore.adjust : ScoreStore → Kind → String → Int → Nat → ScoreStore
  | [], k, key, delta, now => [⟨k, key, delta, now⟩]
  | r :: rest, k, key, delta, now =>
    if recMatches k key r then
      { r with score := r.score + delta, updated_at := now } :: rest
    else
      r :: ScoreStore.adjust rest k key delta now

/-- Modelled from the spec: `set(kind, key, score)` is the absolute overwrite
used for administrative correction, creating the record when absent. -/
def ScoreStore.set : ScoreStore → Kind → String → Int → Nat → ScoreStore
  | [], k, key, score, now => [⟨k, key, score, now⟩]
  | r :: rest, k, key, score, now =>
    if recMatches k key r then
      { r with score := score, updated_at := now } :: rest
    else
      r :: ScoreStore.set rest k key score now

/-! ## Reputation updater (modelled from the spec) -/

/-- Modelled from the spec: `on_outcome(identifier, source_address, succeeded)`
translates an authentication outcome into score deltas. On failure it adjusts
both the identifier score and the source-address score by -1; on success it
performs no score mutation. -/
def on_outcome (s : ScoreStore) (identifier source_address : String)
    (succeeded : Bool) (now : Nat) : ScoreStore :=
  if succeeded then s
  else
    ScoreStore.adjust
      (ScoreStore.adjust s Kind.IDENTIFIER identifier (-1) now)
      Kind.NETWORK_ADDRESS source_address (-1) now

/-! ## Reputation policy evaluation (modelled from the spec) -/

/-- Result of one policy evaluation: a pass/fail decision and the combined
numeric score it was based on. -/
structure PolicyResult where
  passing : Bool
  score : Int
deriving DecidableEq, Repr

/-- The request context handed to `evaluate`: the resolved acting identifier
and source network address, either of which may be absent. -/
structure PolicyContext where
  identifier : Option String
  source_address : Option String

/-- User component of the combined score: the identifier score when an
identifier is present in the context, else 0. -/
def userScore (s : ScoreStore) (ctx : PolicyContext) : Int :=
  match ctx.identifier with
  | some id => ScoreStore.get s Kind.IDENTIFIER id
  | none => 0

/-- Address component of the combined score: the network-address score when a
source address is present in the context, else 0. -/
def ipScore (s : ScoreStore) (ctx : PolicyContext) : Int :=
  match ctx.source_address with
  | some ip => ScoreStore.get s Kind.NETWORK_ADDRESS ip
  | none => 0

/-- Modelled from the spec: `evaluate(context)` reads the user and address
scores, combines them, and passes exactly when `combined >= threshold`. -/
def evaluate (threshold : Int) (s : ScoreStore) (ctx : PolicyContext) : PolicyResult :=
  let combined := userScore s ctx + ipScore s ctx
  ⟨decide (combined ≥ threshold), combined⟩

/-- Evaluation as a state-passing operation on the store: the spec makes
evaluation read-only, so the store it returns is the store it was given. -/
def evaluateS (threshold : Int) (s : ScoreStore) (ctx : PolicyContext) :
    PolicyResult × ScoreStore :=
  (evaluate threshold s ctx, s)

/-! ## Policy configuration validation (modelled from the spec and the tests) -/

/-- Input data of the reputation-policy configuration serializer. -/
structure ReputationPolicyData where
  name : Option String
  threshold : Option Int
  check_ip : Option Bool
  check_username : Option Bool
deriving DecidableEq, Repr

/-- Modelled from the spec: the configuration serializer for a reputation
policy (its module `authentik/policies/reputation/api.py` is not part of this
snapshot). A config needs its `name` and its `threshold` present; in addition
the shipped test `test_api` (src/authentik/policies/reputation/tests.py,
variable `no_toggle`) pins that data carrying only a name and a threshold is
rejected, i.e. at least one of the `check_ip` / `check_username` toggles must
be enabled for validation to succeed. -/
def reputationPolicyIsValid (d : ReputationPolicyData) : Bool :=
  d.name.isSome && d.threshold.isSome &&
    (d.check_ip.getD false || d.check_username.getD false)

/-! ## Sequences of store operations, for the store invariants -/

/-- An operation on the store: an authentication-outcome event consumed by
the updater, or an administrative absolute `set`. -/
inductive StoreOp where
  | outcome (identifier source_address : String) (succeeded : Bool) (now : Nat)
  | adminSet (k : Kind) (key : String) (score : Int) (now : Nat)

/-- Apply one operation to the store. -/
def applyOp (s : ScoreStore) : StoreOp → ScoreStore
  | .outcome id ip succeeded now => on_outcome s id ip succeeded now
  | .adminSet k key score now => ScoreStore.set s k key score now

/-- Apply a sequence of operations to the store, oldest first. -/
def runOps (s : ScoreStore) (ops : List StoreOp) : ScoreStore :=
  ops.foldl applyOp s

/-- Well-formedness of the store: at most one record per (kind, key) pair. -/
def wf (s : ScoreStore) : Prop :=
  s.Pairwise (fun a b => ¬(a.kind = b.kind ∧ a.key = b.key))

/-- Whether an operation writes the record of the given (kind, key) pair:
a failed outcome writes its identifier key and its address key, a successful
outcome writes nothing, an administrative set writes its own pair. -/
def opTouches (op : StoreOp) (k : Kind) (key : String) : Prop :=
  match op with
  | .outcome id ip succeeded _ =>
      succeeded = false ∧
        ((k = Kind.IDENTIFIER ∧ key = id) ∨ (k = Kind.NETWORK_ADDRESS ∧ key = ip))
  | .adminSet k2 key2 _ _ => k = k2 ∧ key = key2

/-! ## User recovery API, embedded from src/authentik/core/api/users.py -/

/-- Token intents; the recovery actions use `INTENT_RECOVERY`. -/
inductive TokenIntents where
  | INTENT_VERIFICATION
  | INTENT_API
  | INTENT_RECOVERY
  | INTENT_APP_PASSWORD
deriving DecidableEq, Repr

/-- A flow, identified by its slug. -/
structure Flow where
  slug : String
deriving DecidableEq, Repr

/-- The current tenant; the recovery endpoints read only its configured
recovery flow. -/
structure Tenant where
  flow_recovery : Option Flow

/-- The fields of a user that the recovery endpoints read. -/
structure User where
  pk : Nat
  uid : String
  email : String
deriving DecidableEq, Repr

/-- A token row: `Token.objects.get_or_create` keys on the identifier, the
user and the intent; `key` is the secret embedded into recovery links. -/
structure Token where
  identifier : String
  user : Nat
  intent : TokenIntents
  key : String
deriving DecidableEq, Repr

/-- The lookup predicate of `Token.objects.get_or_create(identifier=...,
user=..., intent=...)`: all three given fields must match. -/
def tokenMatches (identifier : String) (user : Nat) (intent : TokenIntents)
    (t : Token) : Bool :=
  t.identifier == identifier && t.user == user && t.intent == intent

/-- `Token.objects.get_or_create`: return the first stored token matching
all the given fields, or create one with the fresh key and store it. -/
def get_or_create (ts : List Token) (identifier : String) (user : Nat)
    (intent : TokenIntents) (freshKey : String) : Token × List Token :=
  match ts.find? (tokenMatches identifier user intent) with
  | some t => (t, ts)
  | none =>
    (⟨identifier, user, intent, freshKey⟩, ts ++ [⟨identifier, user, intent, freshKey⟩])

/-- `UserViewSet._create_recovery_link`: when the tenant has no recovery
flow, return nothing; otherwise get-or-create the recovery token keyed on
the identifier "<uid>-password-reset" with recovery intent, and build the
absolute link to the flow carrying the token key in its query string. -/
def _create_recovery_link (tenant : Tenant) (user : User) (base : String)
    (ts : List Token) (freshKey : String) : Option (String × Token) × List Token :=
  match tenant.flow_recovery with
  | none => (none, ts)
  | some flow =>
    let tt := get_or_create ts (user.uid ++ "-password-reset") user.pk
      TokenIntents.INTENT_RECOVERY freshKey
    (some (base ++ "/if/flow/" ++ flow.slug ++ "/?token=" ++ tt.1.key, tt.1), tt.2)

/-- An HTTP response of the `recovery` action: status code and link body. -/
structure LinkResponse where
  status : Nat
  link : String
deriving DecidableEq, Repr

/-- `UserViewSet.recovery`: 404 with an empty link when no link could be
created, otherwise 200 with the link. -/
def recovery (tenant : Tenant) (user : User) (base : String) (ts : List Token)
    (freshKey : String) : LinkResponse × List Token :=
  match _create_recovery_link tenant user base ts freshKey with
  | (none, ts2) => (⟨404, ""⟩, ts2)
  | (some (link, _), ts2) => (⟨200, link⟩, ts2)

/-- An email stage: subject and template of the mail to send. -/
structure EmailStage where
  subject : String
  template : String
deriving DecidableEq, Repr

/-- The templated email message that `recovery_email` builds and sends. -/
structure TemplateEmailMessage where
  subject : String
  template_name : String
  to_addr : List String
  url : String
deriving DecidableEq, Repr

/-- `UserViewSet.recovery_email`: 404 before anything else when the target
user's email is empty; then 404 when no recovery link could be created; then
404 when the requested email stage is not accessible to the requester;
otherwise send the templated message to the user's address and return 204.
The result carries the status code, the token store after the call, and the
list of messages sent. -/
def recovery_email (tenant : Tenant) (for_user : User) (base : String)
    (ts : List Token) (freshKey : String) (stage : Option EmailStage) :
    Nat × List Token × List TemplateEmailMessage :=
  if for_user.email == "" then (404, ts, [])
  else
    match _create_recovery_link tenant for_user base ts freshKey with
    | (none, ts2) => (404, ts2, [])
    | (some (link, _token), ts2) =>
      match stage with
      | none => (404, ts2, [])
      | some st => (204, ts2, [⟨st.subject, st.template, [for_user.email], link⟩])

/-! ## Helper lemmas about the score store -/

theorem recMatches_iff (k : Kind) (key : String) (r : ReputationRecord) :
    recMatches k key r = true ↔ r.kind = k ∧ r.key = key := by
  simp [recMatches]

theorem get_adjust_same (s : ScoreStore) (k : Kind) (key : String) (d : Int) (now : Nat) :
    ScoreStore.get (ScoreStore.adjust s k key d now) k key = ScoreStore.get s k key + d := by
  induction s with
  | nil => simp [ScoreStore.adjust, ScoreStore.get, recMatches]
  | cons r rest ih =>
    cases h : recMatches k key r with
    | true =>
      have hm : recMatches k key { r with score := r.score + d, updated_at := now } = true := by
        simp only [recMatches] at h ⊢; exact h
      simp [ScoreStore.adjust, ScoreStore.get, h, hm]
    | false =>
      simp [ScoreStore.adjust, ScoreStore.get, h, ih]

theorem get_adjust_ne_kind (s : ScoreStore) (k k2 : Kind) (key key2 : String) (d : Int)
    (now : Nat) (hk : k ≠ k2) :
    ScoreStore.get (ScoreStore.adjust s k key d now) k2 key2 = ScoreStore.get s k2 key2 := by
  induction s with
  | nil =>
    have : recMatches k2 key2 (⟨k, key, d, now⟩ : ReputationRecord) = false := by
      simp [recMatches]; intro hkk; exact absurd hkk hk
    simp [ScoreStore.adjust, ScoreStore.get, this]
  | cons r rest ih =>
    cases h : recMatches k key r with
    | true =>
      have hkind : r.kind = k := ((recMatches_iff k key r).mp h).1
      have h1 : recMatches k2 key2 { r with score := r.score + d, updated_at := now } = false := by
        simp [recMatches, hkind]; intro hkk; exact absurd hkk hk
      have h2 : recMatches k2 key2 r = false := by
        simp [recMatches, hkind]; intro hkk; exact absurd hkk hk
      simp [ScoreStore.adjust, ScoreStore.get, h, h1, h2]
    | false =>
      simp [ScoreStore.adjust, ScoreStore.get, h, ih]

theorem userScore_nil (ctx : PolicyContext) : userScore [] ctx = 0 := by
  unfold userScore
  cases ctx.identifier <;> simp [ScoreStore.get]

theorem ipScore_nil (ctx : PolicyContext) : ipScore [] ctx = 0 := by
  unfold ipScore
  cases ctx.source_address <;> simp [ScoreStore.get]

end Authentik

namespace Authentik

theorem keys_of_mem_adjust {x : ReputationRecord} {s : ScoreStore} {k : Kind} {key : String}
    {d : Int} {now : Nat} (hx : x ∈ ScoreStore.adjust s k key d now) :
    (∃ y ∈ s, y.kind = x.kind ∧ y.key = x.key) ∨ (x.kind = k ∧ x.key = key) := by
  induction s with
  | nil =>
    simp [ScoreStore.adjust] at hx
    subst hx; right; exact ⟨rfl, rfl⟩
  | cons r rest ih =>
    cases h : recMatches k key r with
    | true =>
      simp only [ScoreStore.adjust, h, if_pos] at hx
      rcases List.mem_cons.mp hx with h1 | h1
      · subst h1; exact Or.inl ⟨r, List.mem_cons_self r rest, rfl, rfl⟩
      · exact Or.inl ⟨x, List.mem_cons_of_mem r h1, rfl, rfl⟩
    | false =>
      simp only [ScoreStore.adjust, h, Bool.false_eq_true, if_false] at hx
      rcases List.mem_cons.mp hx with h1 | h1
      · subst h1; exact Or.inl ⟨x, List.mem_cons_self x rest, rfl, rfl⟩
      · rcases ih h1 with ⟨y, hy, hk2, hkey2⟩ | h2
        · exact Or.inl ⟨y, List.mem_cons_of_mem r hy, hk2, hkey2⟩
        · exact Or.inr h2

theorem keys_of_mem_set {x : ReputationRecord} {s : ScoreStore} {k : Kind} {key : String}
    {sc : Int} {now : Nat} (hx : x ∈ ScoreStore.set s k key sc now) :
    (∃ y ∈ s, y.kind = x.kind ∧ y.key = x.key) ∨ (x.kind = k ∧ x.key = key) := by
  induction s with
  | nil =>
    simp [ScoreStore.set] at hx
    subst hx; right; exact ⟨rfl, rfl⟩
  | cons r rest ih =>
    cases h : recMatches k key r with
    | true =>
      simp only [ScoreStore.set, h, if_pos] at hx
      rcases List.mem_cons.mp hx with h1 | h1
      · subst h1; exact Or.inl ⟨r, List.mem_cons_self r rest, rfl, rfl⟩
      · exact Or.inl ⟨x, List.mem_cons_of_mem r h1, rfl, rfl⟩
    | false =>
      simp only [ScoreStore.set, h, Bool.false_eq_true, if_false] at hx
      rcases List.mem_cons.mp hx with h1 | h1
      · subst h1; exact Or.inl ⟨x, List.mem_cons_self x rest, rfl, rfl⟩
      · rcases ih h1 with ⟨y, hy, hk2, hkey2⟩ | h2
        · exact Or.inl ⟨y, List.mem_cons_of_mem r hy, hk2, hkey2⟩
        · exact Or.inr h2

theorem wf_adjust {s : ScoreStore} (hs : wf s) (k : Kind) (key : String) (d : Int) (now : Nat) :
    wf (ScoreStore.adjust s k key d now) := by
  induction s with
  | nil => simp [ScoreStore.adjust, wf]
  | cons r rest ih =>
    rw [wf, List.pairwise_cons] at hs
    obtain ⟨hr, hrest⟩ := hs
    cases h : recMatches k key r with
    | true =>
      simp only [ScoreStore.adjust, h, if_pos]
      rw [wf, List.pairwise_cons]
      exact ⟨fun b hb => hr b hb, hrest⟩
    | false =>
      simp only [ScoreStore.adjust, h, Bool.false_eq_true, if_false]
      rw [wf, List.pairwise_cons]
      refine ⟨fun b hb => ?_, ih hrest⟩
      rcases keys_of_mem_adjust hb with ⟨y, hy, hk2, hkey2⟩ | ⟨hk2, hkey2⟩
      · intro hc; exact hr y hy ⟨hk2 ▸ hc.1, hkey2 ▸ hc.2⟩
      · intro hc
        have : recMatches k key r = true :=
          (recMatches_iff k key r).mpr ⟨hk2 ▸ hc.1, hkey2 ▸ hc.2⟩
        rw [h] at this; exact Bool.false_ne_true this

theorem wf_set {s : ScoreStore} (hs : wf s) (k : Kind) (key : String) (sc : Int) (now : Nat) :
    wf (ScoreStore.set s k key sc now) := by
  induction s with
  | nil => simp [ScoreStore.set, wf]
  | cons r rest ih =>
    rw [wf, List.pairwise_cons] at hs
    obtain ⟨hr, hrest⟩ := hs
    cases h : recMatches k key r with
    | true =>
      simp only [ScoreStore.set, h, if_pos]
      rw [wf, List.pairwise_cons]
      exact ⟨fun b hb => hr b hb, hrest⟩
    | false =>
      simp only [ScoreStore.set, h, Bool.false_eq_true, if_false]
      rw [wf, List.pairwise_cons]
      refine ⟨fun b hb => ?_, ih hrest⟩
      rcases keys_of_mem_set hb with ⟨y, hy, hk2, hkey2⟩ | ⟨hk2, hkey2⟩
      · intro hc; exact hr y hy ⟨hk2 ▸ hc.1, hkey2 ▸ hc.2⟩
      · intro hc
        have : recMatches k key r = true :=
          (recMatches_iff k key r).mpr ⟨hk2 ▸ hc.1, hkey2 ▸ hc.2⟩
        rw [h] at this; exact Bool.false_ne_true this

theorem wf_applyOp {s : ScoreStore} (hs : wf s) (op : StoreOp) : wf (applyOp s op) := by
  cases op with
  | outcome id ip succeeded now =>
    cases succeeded with
    | true => exact hs
    | false => exact wf_adjust (wf_adjust hs _ _ _ _) _ _ _ _
  | adminSet k key sc now => exact wf_set hs _ _ _ _

theorem wf_runOps {s : ScoreStore} (hs : wf s) (ops : List StoreOp) : wf (runOps s ops) := by
  induction ops generalizing s with
  | nil => exact hs
  | cons op rest ih => exact ih (wf_applyOp hs op)

theorem recMatches_update (k : Kind) (key : String) (r : ReputationRecord) (x : Int) (y : Nat) :
    recMatches k key { r with score := x, updated_at := y } = recMatches k key r := rfl

theorem countP_le_one_of_wf {s : ScoreStore} (hs : wf s) (k : Kind) (key : String) :
    s.countP (recMatches k key) ≤ 1 := by
  induction s with
  | nil => simp
  | cons r rest ih =>
    rw [wf, List.pairwise_cons] at hs
    obtain ⟨hr, hrest⟩ := hs
    rw [List.countP_cons]
    cases h : recMatches k key r with
    | false => simpa using ih hrest
    | true =>
      have hz : rest.countP (recMatches k key) = 0 := by
        rw [List.countP_eq_zero]
        intro b hb hbm
        have h1 := (recMatches_iff k key r).mp h
        have h2 := (recMatches_iff k key b).mp hbm
        exact hr b hb ⟨h1.1.trans h2.1.symm, h1.2.trans h2.2.symm⟩
      simp [hz, h]

theorem persist_adjust {r : ReputationRecord} {s : ScoreStore} (hr : r ∈ s) (k : Kind)
    (key : String) (d : Int) (now : Nat) :
    ∃ r2 ∈ ScoreStore.adjust s k key d now, r2.kind = r.kind ∧ r2.key = r.key := by
  induction s with
  | nil => cases hr
  | cons a rest ih =>
    cases h : recMatches k key a with
    | true =>
      simp only [ScoreStore.adjust, h, if_pos]
      rcases List.mem_cons.mp hr with h1 | h1
      · subst h1
        exact ⟨_, List.mem_cons_self _ _, rfl, rfl⟩
      · exact ⟨r, List.mem_cons_of_mem _ h1, rfl, rfl⟩
    | false =>
      simp only [ScoreStore.adjust, h, Bool.false_eq_true, if_false]
      rcases List.mem_cons.mp hr with h1 | h1
      · subst h1
        exact ⟨r, List.mem_cons_self _ _, rfl, rfl⟩
      · obtain ⟨r2, hr2, he⟩ := ih h1
        exact ⟨r2, List.mem_cons_of_mem _ hr2, he⟩

theorem persist_set {r : ReputationRecord} {s : ScoreStore} (hr : r ∈ s) (k : Kind)
    (key : String) (sc : Int) (now : Nat) :
    ∃ r2 ∈ ScoreStore.set s k key sc now, r2.kind = r.kind ∧ r2.key = r.key := by
  induction s with
  | nil => cases hr
  | cons a rest ih =>
    cases h : recMatches k key a with
    | true =>
      simp only [ScoreStore.set, h, if_pos]
      rcases List.mem_cons.mp hr with h1 | h1
      · subst h1
        exact ⟨_, List.mem_cons_self _ _, rfl, rfl⟩
      · exact ⟨r, List.mem_cons_of_mem _ h1, rfl, rfl⟩
    | false =>
      simp only [ScoreStore.set, h, Bool.false_eq_true, if_false]
      rcases List.mem_cons.mp hr with h1 | h1
      · subst h1
        exact ⟨r, List.mem_cons_self _ _, rfl, rfl⟩
      · obtain ⟨r2, hr2, he⟩ := ih h1
        exact ⟨r2, List.mem_cons_of_mem _ hr2, he⟩

theorem persist_applyOp {r : ReputationRecord} {s : ScoreStore} (hr : r ∈ s) (op : StoreOp) :
    ∃ r2 ∈ applyOp s op, r2.kind = r.kind ∧ r2.key = r.key := by
  cases op with
  | outcome id ip succeeded now =>
    cases succeeded with
    | true => exact ⟨r, hr, rfl, rfl⟩
    | false =>
      obtain ⟨r1, hr1, he1, he2⟩ := persist_adjust hr Kind.IDENTIFIER id (-1) now
      obtain ⟨r2, hr2, he3, he4⟩ := persist_adjust hr1 Kind.NETWORK_ADDRESS ip (-1) now
      exact ⟨r2, hr2, he3.trans he1, he4.trans he2⟩
  | adminSet k key sc now => exact persist_set hr k key sc now

theorem persist_runOps {r : ReputationRecord} {s : ScoreStore} (hr : r ∈ s)
    (ops : List StoreOp) :
    ∃ r2 ∈ runOps s ops, r2.kind = r.kind ∧ r2.key = r.key := by
  induction ops generalizing s r with
  | nil => exact ⟨r, hr, rfl, rfl⟩
  | cons op rest ih =>
    obtain ⟨r1, hr1, he1, he2⟩ := persist_applyOp hr op
    obtain ⟨r2, hr2, he3, he4⟩ := ih hr1
    exact ⟨r2, hr2, he3.trans he1, he4.trans he2⟩

theorem hasRecord_adjust {s : ScoreStore} {k2 : Kind} {key2 : String} {d : Int} {now : Nat}
    {k : Kind} {key : String}
    (h : ScoreStore.hasRecord (ScoreStore.adjust s k2 key2 d now) k key = true) :
    ScoreStore.hasRecord s k key = true ∨ (k = k2 ∧ key = key2) := by
  induction s with
  | nil =>
    simp [ScoreStore.adjust, ScoreStore.hasRecord, recMatches] at h
    exact Or.inr ⟨h.1.symm, h.2.symm⟩
  | cons r rest ih =>
    cases hm : recMatches k2 key2 r with
    | true =>
      simp only [ScoreStore.adjust, hm, if_pos] at h
      simp only [ScoreStore.hasRecord, recMatches_update, Bool.or_eq_true] at h ⊢
      exact Or.inl h
    | false =>
      simp only [ScoreStore.adjust, hm, Bool.false_eq_true, if_false] at h
      simp only [ScoreStore.hasRecord, Bool.or_eq_true] at h ⊢
      rcases h with h1 | h1
      · exact Or.inl (Or.inl h1)
      · rcases ih h1 with h2 | h2
        · exact Or.inl (Or.inr h2)
        · exact Or.inr h2

theorem hasRecord_set {s : ScoreStore} {k2 : Kind} {key2 : String} {sc : Int} {now : Nat}
    {k : Kind} {key : String}
    (h : ScoreStore.hasRecord (ScoreStore.set s k2 key2 sc now) k key = true) :
    ScoreStore.hasRecord s k key = true ∨ (k = k2 ∧ key = key2) := by
  induction s with
  | nil =>
    simp [ScoreStore.set, ScoreStore.hasRecord, recMatches] at h
    exact Or.inr ⟨h.1.symm, h.2.symm⟩
  | cons r rest ih =>
    cases hm : recMatches k2 key2 r with
    | true =>
      simp only [ScoreStore.set, hm, if_pos] at h
      simp only [ScoreStore.hasRecord, recMatches_update, Bool.or_eq_true] at h ⊢
      exact Or.inl h
    | false =>
      simp only [ScoreStore.set, hm, Bool.false_eq_true, if_false] at h
      simp only [ScoreStore.hasRecord, Bool.or_eq_true] at h ⊢
      rcases h with h1 | h1
      · exact Or.inl (Or.inl h1)
      · rcases ih h1 with h2 | h2
        · exact Or.inl (Or.inr h2)
        · exact Or.inr h2

theorem hasRecord_applyOp {s : ScoreStore} {op : StoreOp} {k : Kind} {key : String}
    (h : ScoreStore.hasRecord (applyOp s op) k key = true) :
    ScoreStore.hasRecord s k key = true ∨ opTouches op k key := by
  cases op with
  | outcome id ip succeeded now =>
    cases succeeded with
    | true => exact Or.inl h
    | false =>
      rcases hasRecord_adjust h with h1 | h1
      · rcases hasRecord_adjust h1 with h2 | h2
        · exact Or.inl h2
        · exact Or.inr ⟨rfl, Or.inl h2⟩
      · exact Or.inr ⟨rfl, Or.inr h1⟩
  | adminSet k2 key2 sc now =>
    rcases hasRecord_set h with h1 | h1
    · exact Or.inl h1
    · exact Or.inr h1

theorem hasRecord_runOps {s : ScoreStore} {ops : List StoreOp} {k : Kind} {key : String}
    (h : ScoreStore.hasRecord (runOps s ops) k key = true) :
    ScoreStore.hasRecord s k key = true ∨ ∃ op ∈ ops, opTouches op k key := by
  induction ops generalizing s with
  | nil => exact Or.inl h
  | cons op rest ih =>
    rcases ih h with h1 | ⟨op2, hop2, ht⟩
    · rcases hasRecord_applyOp h1 with h2 | h2
      · exact Or.inl h2
      · exact Or.inr ⟨op, List.mem_cons_self _ _, h2⟩
    · exact Or.inr ⟨op2, List.mem_cons_of_mem _ hop2, ht⟩

/-! ## Claims about the reputation engine -/

/-- C2: from an empty store with threshold 0, one failed outcome for
identifier "alice" from ip "127.0.0.1" makes evaluation on a context carrying
that identifier and address return passing = false with combined score -2
(user score -1 plus ip score -1). -/
theorem C2_scenario_fresh_failure :
    ScoreStore.get (on_outcome [] "alice" "127.0.0.1" false 1) Kind.IDENTIFIER "alice" = -1 ∧
    ScoreStore.get (on_outcome [] "alice" "127.0.0.1" false 1) Kind.NETWORK_ADDRESS "127.0.0.1" = -1 ∧
    evaluate 0 (on_outcome [] "alice" "127.0.0.1" false 1)
      ⟨some "alice", some "127.0.0.1"⟩ = ⟨false, -2⟩ := by
  decide

/-- C3: for every identifier, source address and prior store state, one
failed outcome decreases the identifier score read back by `get` by exactly 1
and the network-address score read back by `get` by exactly 1. -/
theorem C3_failed_outcome_decrements (s : ScoreStore) (id ip : String) (now : Nat) :
    ScoreStore.get (on_outcome s id ip false now) Kind.IDENTIFIER id
      = ScoreStore.get s Kind.IDENTIFIER id - 1 ∧
    ScoreStore.get (on_outcome s id ip false now) Kind.NETWORK_ADDRESS ip
      = ScoreStore.get s Kind.NETWORK_ADDRESS ip - 1 := by
  have hne : Kind.NETWORK_ADDRESS ≠ Kind.IDENTIFIER := by decide
  have hne2 : Kind.IDENTIFIER ≠ Kind.NETWORK_ADDRESS := by decide
  constructor
  · show ScoreStore.get
      (ScoreStore.adjust (ScoreStore.adjust s Kind.IDENTIFIER id (-1) now)
        Kind.NETWORK_ADDRESS ip (-1) now) Kind.IDENTIFIER id = _
    rw [get_adjust_ne_kind _ _ _ _ _ _ _ hne, get_adjust_same]
    omega
  · show ScoreStore.get
      (ScoreStore.adjust (ScoreStore.adjust s Kind.IDENTIFIER id (-1) now)
        Kind.NETWORK_ADDRESS ip (-1) now) Kind.NETWORK_ADDRESS ip = _
    rw [get_adjust_same, get_adjust_ne_kind _ _ _ _ _ _ _ hne2]
    omega

/-- C4: from a store pre-seeded with identifier score 43 for "alice", one
failed outcome for ("alice", "127.0.0.1") makes the identifier score 42 and
the ip score -1, and evaluation with threshold 0 then returns passing = true
with combined score 41. -/
theorem C4_scenario_preseeded :
    ScoreStore.get
      (on_outcome (ScoreStore.set [] Kind.IDENTIFIER "alice" 43 0) "alice" "127.0.0.1" false 1)
      Kind.IDENTIFIER "alice" = 42 ∧
    ScoreStore.get
      (on_outcome (ScoreStore.set [] Kind.IDENTIFIER "alice" 43 0) "alice" "127.0.0.1" false 1)
      Kind.NETWORK_ADDRESS "127.0.0.1" = -1 ∧
    evaluate 0
      (on_outcome (ScoreStore.set [] Kind.IDENTIFIER "alice" 43 0) "alice" "127.0.0.1" false 1)
      ⟨some "alice", some "127.0.0.1"⟩ = ⟨true, 41⟩ := by
  decide

/-- C5: after every sequence of outcome events and administrative sets
starting from the empty store, the store holds at most one record per
(kind, key) pair — it is pairwise duplicate-free and a lookup by one kind
and key matches at most one record; a record exists only when some operation
of the sequence wrote that (kind, key), so records are created lazily on the
first failed outcome or administrative set for an unseen key; and the core
never deletes a record: every record's (kind, key) survives any further
sequence of operations. -/
theorem C5_store_invariants (ops extra : List StoreOp) :
    wf (runOps [] ops) ∧
    (∀ k key, (runOps [] ops).countP (recMatches k key) ≤ 1) ∧
    (∀ k key, ScoreStore.hasRecord (runOps [] ops) k key = true →
      ∃ op ∈ ops, opTouches op k key) ∧
    ∀ r ∈ runOps [] ops, ∃ r2 ∈ runOps [] (ops ++ extra),
      r2.kind = r.kind ∧ r2.key = r.key := by
  have hwf : wf (runOps [] ops) := wf_runOps List.Pairwise.nil ops
  refine ⟨hwf, fun k key => countP_le_one_of_wf hwf k key, fun k key h => ?_, fun r hr => ?_⟩
  · rcases hasRecord_runOps h with h1 | h1
    · simp [ScoreStore.hasRecord] at h1
    · exact h1
  · rw [runOps, List.foldl_append]
    exact persist_runOps hr extra

/-- Witness for C5 at a concrete one-failure history: the resulting store is
well-formed, the created identifier record traces back to the operation that
wrote it, and its (kind, key) survives a later administrative set. -/
theorem C5_store_invariants_witness :
    wf (runOps [] [StoreOp.outcome "alice" "127.0.0.1" false 1]) ∧
    (∃ op ∈ [StoreOp.outcome "alice" "127.0.0.1" false 1],
      opTouches op Kind.IDENTIFIER "alice") ∧
    ∃ r2 ∈ runOps [] ([StoreOp.outcome "alice" "127.0.0.1" false 1] ++
        [StoreOp.adminSet Kind.IDENTIFIER "alice" 0 2]),
      r2.kind = Kind.IDENTIFIER ∧ r2.key = "alice" :=
  ⟨(C5_store_invariants [StoreOp.outcome "alice" "127.0.0.1" false 1] []).1,
   (C5_store_invariants [StoreOp.outcome "alice" "127.0.0.1" false 1] []).2.2.1
     Kind.IDENTIFIER "alice" (by decide),
   (C5_store_invariants [StoreOp.outcome "alice" "127.0.0.1" false 1]
       [StoreOp.adminSet Kind.IDENTIFIER "alice" 0 2]).2.2.2
     ⟨Kind.IDENTIFIER, "alice", -1, 1⟩ (by decide)⟩

/-- C1 counterexample: configuration data carrying only a name and the
negative threshold -5 is rejected by the serializer — the shipped test
`test_api` asserts `is_valid()` is False on exactly this data — refuting the
claim that such a configuration is accepted and stored. -/
theorem C1_counterexample :
    reputationPolicyIsValid ⟨some "reputation-test", some (-5), none, none⟩ = false := by
  decide

/-- C1 amended: a configuration with negative threshold -5 is accepted when,
besides the name and the threshold, at least one of the check_ip /
check_username toggles is enabled; a configuration missing its threshold is
invalid; and a configuration with neither toggle enabled is invalid.
Validation happens at configuration time only: evaluation is a total
function and performs no validation. -/
theorem C1_amended_validation (d : ReputationPolicyData) :
    reputationPolicyIsValid ⟨some "reputation-test", some (-5), some true, none⟩ = true ∧
    (d.threshold = none → reputationPolicyIsValid d = false) ∧
    (d.check_ip.getD false = false → d.check_username.getD false = false →
      reputationPolicyIsValid d = false) := by
  refine ⟨by decide, fun h => ?_, fun h1 h2 => ?_⟩
  · simp [reputationPolicyIsValid, h]
  · simp [reputationPolicyIsValid, h1, h2]

/-- Witness for the amended C1 at concrete configuration data. -/
theorem C1_amended_validation_witness :
    (ReputationPolicyData.mk (some "x") none (some true) none).threshold = none ∧
    reputationPolicyIsValid ⟨some "x", none, some true, none⟩ = false :=
  ⟨rfl, (C1_amended_validation ⟨some "x", none, some true, none⟩).2.1 rfl⟩

/-- C6: a successful outcome performs no score mutation and creates no
record: the store is returned unchanged, so both scores read back equal. -/
theorem C6_success_no_mutation (s : ScoreStore) (id ip : String) (now : Nat) :
    on_outcome s id ip true now = s ∧
    ScoreStore.get (on_outcome s id ip true now) Kind.IDENTIFIER id
      = ScoreStore.get s Kind.IDENTIFIER id ∧
    ScoreStore.get (on_outcome s id ip true now) Kind.NETWORK_ADDRESS ip
      = ScoreStore.get s Kind.NETWORK_ADDRESS ip :=
  ⟨rfl, rfl, rfl⟩

/-- C7: evaluation passes exactly when the combined score (user component
plus address component, each 0 when absent from the context or never written)
is at least the threshold; the reported score is that combined score; and on
a fresh store with threshold 0 every context passes with score 0. -/
theorem C7_evaluate_iff_threshold (threshold : Int) (s : ScoreStore) (ctx : PolicyContext) :
    ((evaluate threshold s ctx).passing = true ↔
      userScore s ctx + ipScore s ctx ≥ threshold) ∧
    (evaluate threshold s ctx).score = userScore s ctx + ipScore s ctx ∧
    (evaluate 0 [] ctx).passing = true ∧
    (evaluate 0 [] ctx).score = 0 := by
  refine ⟨by simp [evaluate], rfl, ?_, ?_⟩
  · simp [evaluate, userScore_nil, ipScore_nil]
  · simp [evaluate, userScore_nil, ipScore_nil]

/-- C8: evaluation never mutates scores: evaluated as a state-passing
operation, the store it returns is the one it was given, a second evaluation
on that store yields the identical PolicyResult, and every score reads back
unchanged. -/
theorem C8_evaluate_readonly_idempotent (threshold : Int) (s : ScoreStore) (ctx : PolicyContext) :
    (evaluateS threshold ((evaluateS threshold s ctx).2) ctx).1
      = (evaluateS threshold s ctx).1 ∧
    (evaluateS threshold s ctx).2 = s ∧
    ∀ k key, ScoreStore.get ((evaluateS threshold s ctx).2) k key
      = ScoreStore.get s k key :=
  ⟨rfl, rfl, fun _ _ => rfl⟩

/-! ## Helper lemmas about the token store -/

theorem find?_append_of_none {p : Token → Bool} {l1 : List Token} (l2 : List Token)
    (h : l1.find? p = none) : (l1 ++ l2).find? p = l2.find? p := by
  induction l1 with
  | nil => rfl
  | cons a l ih =>
    cases hpa : p a with
    | true => simp [List.find?, hpa] at h
    | false =>
      rw [List.cons_append]
      simp only [List.find?, hpa] at h ⊢
      exact ih h

theorem get_or_create_idempotent (ts : List Token) (identifier : String) (user : Nat)
    (intent : TokenIntents) (k1 k2 : String) :
    (get_or_create ((get_or_create ts identifier user intent k1).2)
        identifier user intent k2).1
      = (get_or_create ts identifier user intent k1).1 ∧
    (get_or_create ((get_or_create ts identifier user intent k1).2)
        identifier user intent k2).2
      = (get_or_create ts identifier user intent k1).2 := by
  cases hfind : ts.find? (tokenMatches identifier user intent) with
  | some t => simp [get_or_create, hfind]
  | none =>
    have hmatch : tokenMatches identifier user intent
        (⟨identifier, user, intent, k1⟩ : Token) = true := by
      simp [tokenMatches]
    have hfind2 : (ts ++ [(⟨identifier, user, intent, k1⟩ : Token)]).find?
        (tokenMatches identifier user intent)
        = some (⟨identifier, user, intent, k1⟩ : Token) := by
      rw [find?_append_of_none _ hfind]
      simp [List.find?, hmatch]
    simp [get_or_create, hfind, hfind2]

theorem get_or_create_count (ts : List Token) (identifier : String) (user : Nat)
    (intent : TokenIntents) (k1 : String)
    (h : ts.countP (tokenMatches identifier user intent) ≤ 1) :
    ((get_or_create ts identifier user intent k1).2).countP
      (tokenMatches identifier user intent) ≤ 1 := by
  cases hfind : ts.find? (tokenMatches identifier user intent) with
  | some t => simpa [get_or_create, hfind] using h
  | none =>
    have hz : ts.countP (tokenMatches identifier user intent) = 0 :=
      List.countP_eq_zero.mpr (List.find?_eq_none.mp hfind)
    simp [get_or_create, hfind, List.countP_append, hz, List.countP_cons, tokenMatches]

theorem recovery_eq (tenant : Tenant) (user : User) (base : String) (ts : List Token)
    (k : String) (flow : Flow) (hflow : tenant.flow_recovery = some flow) :
    recovery tenant user base ts k =
      (⟨200, base ++ "/if/flow/" ++ flow.slug ++ "/?token=" ++
          (get_or_create ts (user.uid ++ "-password-reset") user.pk
            TokenIntents.INTENT_RECOVERY k).1.key⟩,
       (get_or_create ts (user.uid ++ "-password-reset") user.pk
          TokenIntents.INTENT_RECOVERY k).2) := by
  simp [recovery, _create_recovery_link, hflow]

/-! ## Claims about the user recovery API -/

/-- C9: for a tenant with a recovery flow, invoking the recovery action
twice for the same user is idempotent: the token is obtained via
get-or-create keyed on "<uid>-password-reset" with recovery intent, so the
second call returns the same response (a link embedding the same token key),
leaves the token store unchanged, and — given the store held at most one
matching token — at most one recovery token exists for that user
afterwards. -/
theorem C9_recovery_idempotent (tenant : Tenant) (user : User) (base : String)
    (ts : List Token) (k1 k2 : String) (flow : Flow)
    (hflow : tenant.flow_recovery = some flow)
    (hts : ts.countP (tokenMatches (user.uid ++ "-password-reset") user.pk
      TokenIntents.INTENT_RECOVERY) ≤ 1) :
    (recovery tenant user base (recovery tenant user base ts k1).2 k2).1
      = (recovery tenant user base ts k1).1 ∧
    (recovery tenant user base (recovery tenant user base ts k1).2 k2).2
      = (recovery tenant user base ts k1).2 ∧
    (recovery tenant user base ts k1).1.status = 200 ∧
    ((recovery tenant user base ts k1).2).countP
      (tokenMatches (user.uid ++ "-password-reset") user.pk
        TokenIntents.INTENT_RECOVERY) ≤ 1 := by
  have h1 := recovery_eq tenant user base ts k1 flow hflow
  have hgc := get_or_create_idempotent ts (user.uid ++ "-password-reset") user.pk
    TokenIntents.INTENT_RECOVERY k1 k2
  have hcount := get_or_create_count ts (user.uid ++ "-password-reset") user.pk
    TokenIntents.INTENT_RECOVERY k1 hts
  refine ⟨?_, ?_, ?_, ?_⟩
  · rw [h1]
    rw [recovery_eq tenant user base _ k2 flow hflow]
    rw [hgc.1]
  · rw [h1]
    rw [recovery_eq tenant user base _ k2 flow hflow]
    rw [hgc.2]
  · rw [h1]
  · rw [h1]
    exact hcount

/-- Witness for C9: two recovery calls on an empty token store for a tenant
with a recovery flow. -/
theorem C9_recovery_idempotent_witness :
    (Tenant.mk (some ⟨"rec"⟩)).flow_recovery = some ⟨"rec"⟩ ∧
    ([] : List Token).countP (tokenMatches ("u1" ++ "-password-reset") 1
      TokenIntents.INTENT_RECOVERY) ≤ 1 ∧
    (recovery ⟨some ⟨"rec"⟩⟩ ⟨1, "u1", "a@b"⟩ "b"
        (recovery ⟨some ⟨"rec"⟩⟩ ⟨1, "u1", "a@b"⟩ "b" [] "k1").2 "k2").1
      = (recovery ⟨some ⟨"rec"⟩⟩ ⟨1, "u1", "a@b"⟩ "b" [] "k1").1 ∧
    (recovery ⟨some ⟨"rec"⟩⟩ ⟨1, "u1", "a@b"⟩ "b" [] "k1").1.status = 200 :=
  ⟨rfl, by decide,
   (C9_recovery_idempotent ⟨some ⟨"rec"⟩⟩ ⟨1, "u1", "a@b"⟩ "b" [] "k1" "k2" ⟨"rec"⟩
     rfl (by decide)).1,
   (C9_recovery_idempotent ⟨some ⟨"rec"⟩⟩ ⟨1, "u1", "a@b"⟩ "b" [] "k1" "k2" ⟨"rec"⟩
     rfl (by decide)).2.2.1⟩

/-- C10: when the target user's email address is empty, recovery_email
returns 404 and sends no email; the empty-email check precedes recovery-link
creation, so no recovery token is created and the token store is returned
unchanged. -/
theorem C10_recovery_email_empty (tenant : Tenant) (for_user : User) (base : String)
    (ts : List Token) (freshKey : String) (stage : Option EmailStage)
    (h : for_user.email = "") :
    recovery_email tenant for_user base ts freshKey stage = (404, ts, []) := by
  simp [recovery_email, h]

/-- Witness for C10 at a concrete user with an empty email address. -/
theorem C10_recovery_email_empty_witness :
    (User.mk 1 "u1" "").email = "" ∧
    recovery_email ⟨some ⟨"rec"⟩⟩ ⟨1, "u1", ""⟩ "b" [] "k" none = (404, [], []) :=
  ⟨rfl, C10_recovery_email_empty ⟨some ⟨"rec"⟩⟩ ⟨1, "u1", ""⟩ "b" [] "k" none rfl⟩

end Authentik
